import Mathlib

/-!
Shallow embedding of the core DSP engine of the xyproto/synth repository.

float64 values are modelled as exact rationals (field operations, absolute
value, comparisons and truncating float-to-int conversion are all exact on
the inputs the claims quantify over); functions whose source uses `math.Pi`,
`math.Sin`, `math.Pow` or `math.Sqrt` are modelled over the real numbers.
The package-global pseudo-random source (`rand.Float64`) is modelled as an
explicit index-addressed stream `rng : Nat -> Rat` of unit-interval draws.
Fallible Go functions returning `(T, error)` are modelled as
`Except String T`, with error strings copied from the source.
-/

namespace Synth

/-- Go conversion from a floating value to `int`: truncation toward zero
(`int(x)` in the source), on exact rationals. -/
def intTrunc (x : ℚ) : ℤ :=
  if 0 ≤ x then ⌊x⌋ else -⌊-x⌋

/-- Waveform-type constant `WaveSine` (iota 0 in synth.go). -/
def WaveSine : ℤ := 0

/-- Waveform-type constant `WaveTriangle`. -/
def WaveTriangle : ℤ := 1

/-- Waveform-type constant `WaveSawtooth`. -/
def WaveSawtooth : ℤ := 2

/-- Waveform-type constant `WaveSquare`. -/
def WaveSquare : ℤ := 3

/-- Waveform-type constant `WaveWhiteNoise`. -/
def WaveWhiteNoise : ℤ := 4

/-- Waveform-type constant `WavePinkNoise`. -/
def WavePinkNoise : ℤ := 5

/-- Waveform-type constant `WaveBrownNoise`. -/
def WaveBrownNoise : ℤ := 6

/-- Noise-type constant `NoiseNone` (iota 0 in synth.go). -/
def NoiseNone : ℤ := 0

/-- Noise-type constant `NoiseWhite`. -/
def NoiseWhite : ℤ := 1

/-- Noise-type constant `NoisePink`. -/
def NoisePink : ℤ := 2

/-- Noise-type constant `NoiseBrown`. -/
def NoiseBrown : ℤ := 3

/-- The `Settings` configuration record. Fields follow the Go struct; the
`SoundType` and `Channels` fields are the ones present in the percussive
module variant of the repository. The `Output` writer is modelled only by
its presence (`Option Unit`). -/
structure Settings where
  StartFreq : ℚ
  EndFreq : ℚ
  SampleRate : ℤ
  Duration : ℚ
  WaveformType : ℤ
  Attack : ℚ
  Decay : ℚ
  Sustain : ℚ
  Release : ℚ
  Drive : ℚ
  FilterCutoff : ℚ
  FilterResonance : ℚ
  Sweep : ℚ
  PitchDecay : ℚ
  NoiseType : ℤ
  NoiseAmount : ℚ
  Output : Option Unit
  NumOscillators : ℤ
  OscillatorLevels : List ℚ
  SaturatorAmount : ℚ
  FilterBands : List ℚ
  BitDepth : ℤ
  FadeDuration : ℚ
  SmoothFrequencyTransitions : Bool
  SoundType : ℤ
  Channels : ℤ

section CoreDSP

variable {α : Type*} [LinearOrderedField α]

/-- `Limiter` (synth.go): hard-clip every sample to the range [-1, 1]. -/
def Limiter (samples : List α) : List α :=
  samples.map (fun sample =>
    if sample > 1 then 1
    else if sample < -1 then -1
    else sample)

/-- `Drive` (synth.go, buffer version): scale every sample by `gain` and
hard-clip the result to [-1, 1]. -/
def Drive (samples : List α) (gain : α) : List α :=
  samples.map (fun sample =>
    let driven := sample * gain
    if driven > 1 then 1
    else if driven < -1 then -1
    else driven)

/-- Loop body of `ApplyEnvelope` (synth.go): walks the buffer carrying the
sample index, computing the ADSR envelope value at `t = i / sampleRate` and
multiplying the sample by it. -/
def applyEnvelopeLoop (attack decay sustain release totalDuration : α)
    (sampleRate : ℤ) : ℕ → List α → List α
  | _, [] => []
  | i, sample :: rest =>
    let t : α := (i : α) / (sampleRate : α)
    let envelope : α :=
      if t < attack then t / attack
      else if t < attack + decay then 1 - (t - attack) / decay * (1 - sustain)
      else if t < totalDuration - release then sustain
      else if t < totalDuration then
        sustain * (1 - (t - (totalDuration - release)) / release)
      else 0
    sample * envelope ::
      applyEnvelopeLoop attack decay sustain release totalDuration sampleRate
        (i + 1) rest

/-- `ApplyEnvelope` (synth.go): apply an ADSR envelope to a whole buffer,
with `totalDuration` derived from the buffer length. -/
def ApplyEnvelope (samples : List α) (attack decay sustain release : α)
    (sampleRate : ℤ) : List α :=
  applyEnvelopeLoop attack decay sustain release
    ((samples.length : α) / (sampleRate : α)) sampleRate 0 samples

/-- Loop body of the pink-noise branch of `GenerateNoise` /
`GeneratePinkNoise`: Paul Kellet style IIR approximation carrying seven
one-pole accumulators; each output is clamped to plus/minus `amount`. -/
def pinkNoiseLoop (amount : α) (rng : ℕ → ℚ) :
    ℕ → ℕ → α × α × α × α × α × α × α → List α
  | _, 0, _ => []
  | i, n + 1, (b0, b1, b2, b3, b4, b5, b6) =>
    let white : α := ((rng i : ℚ) : α) * 2 - 1
    let c0 := 0.99886 * b0 + white * 0.0555179
    let c1 := 0.99332 * b1 + white * 0.0750759
    let c2 := 0.96900 * b2 + white * 0.1538520
    let c3 := 0.86650 * b3 + white * 0.3104856
    let c4 := 0.55000 * b4 + white * 0.5329522
    let c5 := -0.7616 * b5 - white * 0.0168980
    let value := (c0 + c1 + c2 + c3 + c4 + c5 + b6 + white * 0.5362) * amount / 3.5
    let c6 := white * 0.115926
    let clamped :=
      if value > amount then amount
      else if value < -amount then -amount
      else value
    clamped :: pinkNoiseLoop amount rng (i + 1) n (c0, c1, c2, c3, c4, c5, c6)

/-- Loop body of the brown-noise branch of `GenerateNoise`: leaky
integrator of scaled white noise; the unamplified value is carried as
state, the emitted value is amplified by 3.5 and clamped. -/
def brownNoiseLoop (amount : α) (rng : ℕ → ℚ) : ℕ → ℕ → α → List α
  | _, 0, _ => []
  | i, n + 1, lastOutput =>
    let white : α := (((rng i : ℚ) : α) * 2 - 1) * amount / 10
    let value := (lastOutput + 0.02 * white) / 1.02
    let amplified := value * 3.5
    let clamped :=
      if amplified > amount then amount
      else if amplified < -amount then -amount
      else amplified
    clamped :: brownNoiseLoop amount rng (i + 1) n value

/-- `GenerateNoise` (synth.go): dispatch on the noise-type code; the
zero-filled freshly made buffer is returned untouched for any code other
than white, pink or brown (there is no error path in the source). -/
def GenerateNoise (noiseType : ℤ) (length : ℕ) (amount : α) (rng : ℕ → ℚ) :
    List α :=
  if noiseType = NoiseWhite then
    (List.range length).map (fun i => (((rng i : ℚ) : α) * 2 - 1) * amount)
  else if noiseType = NoisePink then
    pinkNoiseLoop amount rng 0 length (0, 0, 0, 0, 0, 0, 0)
  else if noiseType = NoiseBrown then
    brownNoiseLoop amount rng 0 length 0
  else
    List.replicate length 0

/-- `GeneratePinkNoise` (drum voice module): same Paul Kellet loop as the
pink branch of `GenerateNoise`. -/
def GeneratePinkNoise (length : ℕ) (amount : α) (rng : ℕ → ℚ) : List α :=
  pinkNoiseLoop amount rng 0 length (0, 0, 0, 0, 0, 0, 0)

end CoreDSP

/-- `Settings.ApplyEnvelopeAtTime` (synth.go): point evaluation of the ADSR
envelope at time `t`. -/
def Settings.ApplyEnvelopeAtTime (cfg : Settings) (t : ℚ) : ℚ :=
  if t < cfg.Attack then t / cfg.Attack
  else if t < cfg.Attack + cfg.Decay then
    1 - (t - cfg.Attack) / cfg.Decay * (1 - cfg.Sustain)
  else if t < cfg.Duration - cfg.Release then cfg.Sustain
  else if t < cfg.Duration then
    cfg.Sustain * (1 - (t - (cfg.Duration - cfg.Release)) / cfg.Release)
  else 0

/-- `Settings.ApplyDrive` (synth.go): soft-saturation drive applied to one
sample; the identity when the drive amount is not positive. Polymorphic in
the sample carrier so the same definition serves both the exact-rational
claims and the real-valued synthesis pipeline. -/
def Settings.ApplyDrive {α : Type*} [LinearOrderedField α] (cfg : Settings)
    (sample : α) : α :=
  if (cfg.Drive : α) > 0 then
    sample * (1 + (cfg.Drive : α)) / (1 + (cfg.Drive : α) * |sample|)
  else sample

/-- `FindPeakAmplitude` (synth.go): maximum absolute amplitude of the
buffer, 0 for an empty buffer. -/
def FindPeakAmplitude (samples : List ℚ) : ℚ :=
  samples.foldl
    (fun maxAmplitude sample =>
      if |sample| > maxAmplitude then |sample| else maxAmplitude) 0

/-- `NormalizeSamples` (synth.go): scale so the peak matches `targetPeak`,
clamping each scaled sample to [-1, 1]; the identity when the current peak
is zero. -/
def NormalizeSamples (samples : List ℚ) (targetPeak : ℚ) : List ℚ :=
  let currentPeak := FindPeakAmplitude samples
  if currentPeak = 0 then samples
  else
    let scale := targetPeak / currentPeak
    samples.map (fun sample =>
      let normalized := sample * scale
      if normalized > 1 then 1
      else if normalized < -1 then -1
      else normalized)

/-- Shared shape of the per-index output loops of the mixing utilities and
of the per-sample voice-synthesis loops: produce one value per index, in
order, aborting at the first error exactly as the Go `for` loops do. -/
def genLoop {β : Type*} (f : ℕ → Except String β) : List ℕ → Except String (List β)
  | [] => .ok []
  | i :: is =>
    match f i with
    | .error e => .error e
    | .ok s =>
      match genLoop f is with
      | .error e => .error e
      | .ok rest => .ok (s :: rest)

/-- Inner loop of `LinearSummation` at one index `i`: accumulate the values
of every input buffer, failing on the first buffer whose length differs
from `numSamples` (the length of the first buffer). -/
def sumAtIndex (numSamples : ℕ) (i : ℕ) :
    List (List ℚ) → ℚ → Except String ℚ
  | [], acc => .ok acc
  | sample :: rest, acc =>
    if sample.length ≠ numSamples then .error "mismatched sample lengths"
    else sumAtIndex numSamples i rest (acc + sample.getD i 0)

/-- `LinearSummation` (synth.go): mix buffers by per-index averaging,
clamped to [-1, 1]; fails if no buffers are given or if a buffer length
differs from the first buffer's length while summing. -/
def LinearSummation (samples : List (List ℚ)) : Except String (List ℚ) :=
  if samples.length = 0 then .error "no samples provided"
  else
    let numSamples := (samples.headD []).length
    genLoop
      (fun i =>
        match sumAtIndex numSamples i samples 0 with
        | .error e => .error e
        | .ok sum =>
          let average := sum / (samples.length : ℚ)
          .ok (if average > 1 then 1
               else if average < -1 then -1
               else average))
      (List.range numSamples)

/-- Inner loop of `WeightedSummation` at one index `i`: accumulate each
buffer's value scaled by its weight, with the same length check as the
source. -/
def weightedSumAtIndex (numSamples : ℕ) (i : ℕ) :
    List ℚ → List (List ℚ) → ℚ → Except String ℚ
  | _, [], acc => .ok acc
  | weights, sample :: rest, acc =>
    if sample.length ≠ numSamples then .error "mismatched sample lengths"
    else
      weightedSumAtIndex numSamples i weights.tail rest
        (acc + sample.getD i 0 * weights.headD 0)

/-- `WeightedSummation` (synth.go): mix buffers by per-index weighted sum
(no averaging), clamped to [-1, 1]; fails first if the weight count does
not match the buffer count. -/
def WeightedSummation (weights : List ℚ) (samples : List (List ℚ)) :
    Except String (List ℚ) :=
  if weights.length ≠ samples.length then
    .error "number of weights must match number of samples"
  else if samples.length = 0 then .error "no samples provided"
  else
    let numSamples := (samples.headD []).length
    genLoop
      (fun i =>
        match weightedSumAtIndex numSamples i weights samples 0 with
        | .error e => .error e
        | .ok sum =>
          .ok (if sum > 1 then 1
               else if sum < -1 then -1
               else sum))
      (List.range numSamples)

/-- Inner loop of `RMSMixing` at one index `i`: accumulate the squares of
each buffer's value, with the same length check as the source. -/
def squareSumAtIndex (numSamples : ℕ) (i : ℕ) :
    List (List ℝ) → ℝ → Except String ℝ
  | [], acc => .ok acc
  | sample :: rest, acc =>
    if sample.length ≠ numSamples then .error "mismatched sample lengths"
    else squareSumAtIndex numSamples i rest (acc + sample.getD i 0 * sample.getD i 0)

/-- `RMSMixing` (synth.go): per-index root mean square across the input
buffers, clamped to [-1, 1]; same length-mismatch failure as the other
mixers. Over the reals because the source takes a square root. -/
noncomputable def RMSMixing (samples : List (List ℝ)) :
    Except String (List ℝ) :=
  if samples.length = 0 then .error "no samples provided"
  else
    let numSamples := (samples.headD []).length
    genLoop
      (fun i =>
        match squareSumAtIndex numSamples i samples 0 with
        | .error e => .error e
        | .ok sumSquares =>
          let rms := Real.sqrt (sumSquares / (samples.length : ℝ))
          .ok (if rms > 1 then 1
               else if rms < -1 then -1
               else rms))
      (List.range numSamples)

/-- `NewSettings` (new.go, percussive module variant): validate the sample
rate, duration and channel count, then build the default `Settings`.
Struct fields the Go composite literal leaves unset (here `NoiseType`,
present only in the kick-module variant of the struct) take Go's zero
value. -/
def NewSettings (output : Option Unit) (startFreq endFreq duration : ℚ)
    (sampleRate bitDepth channels : ℤ) : Except String Settings :=
  if sampleRate ≤ 0 ∨ duration ≤ 0 ∨ channels ≤ 0 then
    .error "invalid sample rate, duration or channels"
  else
    .ok
      { SoundType := 0
        SampleRate := sampleRate
        BitDepth := bitDepth
        Channels := channels
        Output := output
        StartFreq := startFreq
        EndFreq := endFreq
        Duration := duration
        WaveformType := WaveSine
        NoiseAmount := 0
        Attack := 0.005
        Decay := 0.2
        Sustain := 0.1
        Release := 0.1
        Drive := 0.2
        FilterCutoff := 8000
        Sweep := 0.7
        PitchDecay := 0.4
        NoiseType := 0
        NumOscillators := 1
        OscillatorLevels := [1.0]
        SaturatorAmount := 0.3
        FilterResonance := 1.0
        FilterBands := [200.0, 1000.0, 3000.0]
        FadeDuration := 0.01
        SmoothFrequencyTransitions := true }

end Synth

namespace AudioEffects

/-- `Drive` (vendor audioeffects): soft-saturation distortion of a single
sample; the identity when the drive amount is not positive. -/
def Drive {α : Type*} [LinearOrderedField α] (sample drive : α) : α :=
  if drive > 0 then sample * (1 + drive) / (1 + drive * |sample|)
  else sample

/-- Loop body of `Envelope` (vendor audioeffects): a sample-count driven
ADSR state machine; the state is the literal state string of the source
and `currentLevel` is carried exactly as the source's mutable variable
(every branch assigns it before it is emitted). -/
def envelopeLoop (sustainLevel : ℚ)
    (attackSamples decaySamples sustainSamples releaseSamples : ℤ) :
    ℕ → String → ℚ → List ℚ → List ℚ
  | _, _, _, [] => []
  | i, state, _currentLevel, sample :: rest =>
    let step : String × ℚ :=
      if state = "attack" then
        if attackSamples > 0 then
          if (i : ℤ) ≥ attackSamples then ("decay", 1)
          else ("attack", (i : ℚ) / (attackSamples : ℚ))
        else ("decay", 1)
      else if state = "decay" then
        if decaySamples > 0 then
          if (i : ℤ) ≥ attackSamples + decaySamples then
            ("sustain", sustainLevel)
          else
            ("decay",
              1 - (1 - sustainLevel) * (((i : ℤ) - attackSamples : ℤ) : ℚ) /
                (decaySamples : ℚ))
        else ("sustain", sustainLevel)
      else if state = "sustain" then
        if (i : ℤ) ≥ attackSamples + decaySamples + sustainSamples then
          ("release", sustainLevel)
        else ("sustain", sustainLevel)
      else
        if releaseSamples > 0 then
          if (i : ℤ) ≥ attackSamples + decaySamples + sustainSamples + releaseSamples then
            (state, 0)
          else
            (state,
              sustainLevel *
                (1 - (((i : ℤ) - attackSamples - decaySamples - sustainSamples : ℤ) : ℚ) /
                  (releaseSamples : ℚ)))
        else (state, 0)
    sample * step.2 ::
      envelopeLoop sustainLevel attackSamples decaySamples sustainSamples
        releaseSamples (i + 1) step.1 step.2 rest

/-- `Envelope` (vendor audioeffects): whole-buffer ADSR transform driven by
integer sample counts, with the source's adjustment of the sustain and
release counts when the phases do not fit in the buffer. -/
def Envelope (samples : List ℚ) (attack decay sustainLevel release : ℚ)
    (sampleRate : ℤ) : List ℚ :=
  let attackSamples := Synth.intTrunc (attack * (sampleRate : ℚ))
  let decaySamples := Synth.intTrunc (decay * (sampleRate : ℚ))
  let releaseSamples := Synth.intTrunc (release * (sampleRate : ℚ))
  let sustainSamples : ℤ :=
    (samples.length : ℤ) - attackSamples - decaySamples - releaseSamples
  let adjusted : ℤ × ℤ :=
    if sustainSamples < 0 then
      let releaseSamples2 : ℤ :=
        (samples.length : ℤ) - attackSamples - decaySamples
      (0, if releaseSamples2 < 0 then 0 else releaseSamples2)
    else (sustainSamples, releaseSamples)
  envelopeLoop sustainLevel attackSamples decaySamples adjusted.1 adjusted.2
    0 "attack" 0 samples

end AudioEffects

namespace Synth

/-- `math.Copysign(x, y)`: the magnitude of `x` with the sign of `y`
(the real model ignores the floating negative-zero corner, where the
source would pick the negative sign). -/
noncomputable def mathCopysign (x y : ℝ) : ℝ :=
  if y < 0 then -|x| else |x|

/-- Recursive tail of `LowPassFilter` (synth.go): one-pole filter carrying
the previous output sample. -/
def lowPassLoop (alpha : ℝ) : ℝ → List ℝ → List ℝ
  | _, [] => []
  | prev, x :: rest =>
    let y := alpha * x + (1 - alpha) * prev
    y :: lowPassLoop alpha y rest

/-- `LowPassFilter` (synth.go): basic one-pole low-pass filter; the first
sample is passed through unchanged. -/
noncomputable def LowPassFilter (samples : List ℝ) (cutoff : ℝ)
    (sampleRate : ℤ) : List ℝ :=
  let rc := 1 / (2 * Real.pi * cutoff)
  let dt := 1 / (sampleRate : ℝ)
  let alpha := dt / (rc + dt)
  match samples with
  | [] => []
  | x :: rest => x :: lowPassLoop alpha x rest

/-- Recursive tail of `HighPassFilter` (synth.go): carries the previous
output and the previous input sample. -/
def highPassLoop (alpha : ℝ) : ℝ → ℝ → List ℝ → List ℝ
  | _, _, [] => []
  | prevY, prevX, x :: rest =>
    let y := alpha * (prevY + x - prevX)
    y :: highPassLoop alpha y x rest

/-- `HighPassFilter` (synth.go): basic one-pole high-pass filter; the first
sample is passed through unchanged. -/
noncomputable def HighPassFilter (samples : List ℝ) (cutoff : ℝ)
    (sampleRate : ℤ) : List ℝ :=
  let rc := 1 / (2 * Real.pi * cutoff)
  let dt := 1 / (sampleRate : ℝ)
  let alpha := rc / (rc + dt)
  match samples with
  | [] => []
  | x :: rest => x :: highPassLoop alpha x x rest

/-- `BandPassFilter` (synth.go): low-pass at the high cutoff, then
high-pass at the low cutoff. -/
noncomputable def BandPassFilter (samples : List ℝ) (lowCutoff highCutoff : ℝ)
    (sampleRate : ℤ) : List ℝ :=
  HighPassFilter (LowPassFilter samples highCutoff sampleRate) lowCutoff
    sampleRate

/-- Number of samples a voice generates:
`int(float64(cfg.SampleRate) * cfg.Duration)`. -/
def Settings.numSamples (cfg : Settings) : ℕ :=
  (intTrunc ((cfg.SampleRate : ℚ) * cfg.Duration)).toNat

/-- One iteration of the `GenerateKickWaveform` loop (synth.go): the
waveform switch at the exponentially swept frequency, an unsupported
waveform type giving the source's error; a supported sample is scaled by
the first oscillator level, the envelope at `t` and the drive. -/
noncomputable def kickWaveformSample (cfg : Settings) (rng : ℕ → ℚ) (i : ℕ) :
    Except String ℝ :=
  let t : ℚ := (i : ℚ) / (cfg.SampleRate : ℚ)
  let frequency : ℝ :=
    (cfg.StartFreq : ℝ) *
      Real.rpow ((cfg.EndFreq : ℝ) / (cfg.StartFreq : ℝ))
        ((t : ℝ) / (cfg.Duration : ℝ))
  let raw : Except String ℝ :=
    if cfg.WaveformType = WaveSine then
      .ok (Real.sin (2 * Real.pi * frequency * (t : ℝ)))
    else if cfg.WaveformType = WaveTriangle then
      .ok (2 * |2 * ((t : ℝ) * frequency - (⌊(t : ℝ) * frequency + 0.5⌋ : ℝ))| - 1)
    else if cfg.WaveformType = WaveSawtooth then
      .ok (2 * ((t : ℝ) * frequency - (⌊0.5 + (t : ℝ) * frequency⌋ : ℝ)))
    else if cfg.WaveformType = WaveSquare then
      .ok (mathCopysign 1 (Real.sin (2 * Real.pi * frequency * (t : ℝ))))
    else if cfg.WaveformType = WaveWhiteNoise then
      .ok (((rng i * 2 - 1) * cfg.NoiseAmount : ℚ) : ℝ)
    else if cfg.WaveformType = WavePinkNoise then
      .ok (((GenerateNoise (α := ℚ) NoisePink 1 cfg.NoiseAmount
        (fun _ => rng i)).getD 0 0 : ℚ) : ℝ)
    else if cfg.WaveformType = WaveBrownNoise then
      .ok (((GenerateNoise (α := ℚ) NoiseBrown 1 cfg.NoiseAmount
        (fun _ => rng i)).getD 0 0 : ℚ) : ℝ)
    else .error ("unsupported waveform type: " ++ toString cfg.WaveformType)
  match raw with
  | .error e => .error e
  | .ok sample =>
    let s1 :=
      if cfg.OscillatorLevels.length > 0 then
        sample * ((cfg.OscillatorLevels.headD 0 : ℚ) : ℝ)
      else sample
    let s2 := s1 * ((cfg.ApplyEnvelopeAtTime t : ℚ) : ℝ)
    .ok (cfg.ApplyDrive s2)

/-- `Settings.GenerateKickWaveform` (synth.go): generate `numSamples`
samples through the per-sample pipeline, abort on the first error, then
pass the finished buffer through the limiter. -/
noncomputable def Settings.GenerateKickWaveform (cfg : Settings)
    (rng : ℕ → ℚ) : Except String (List ℝ) :=
  match genLoop (kickWaveformSample cfg rng) (List.range cfg.numSamples) with
  | .error e => .error e
  | .ok samples => .ok (Limiter samples)

/-- One iteration of the tonal loop of `GenerateSnare` (drum voice
module): only the four periodic waveforms are supported, any other
waveform type yields the source's error. -/
noncomputable def snareTonalSample (cfg : Settings) (i : ℕ) :
    Except String ℝ :=
  let t : ℚ := (i : ℚ) / (cfg.SampleRate : ℚ)
  let frequency : ℝ :=
    (cfg.StartFreq : ℝ) *
      Real.rpow ((cfg.EndFreq : ℝ) / (cfg.StartFreq : ℝ))
        ((t : ℝ) / (cfg.Duration : ℝ)) * 0.99
  if cfg.WaveformType = WaveSine then
    .ok (Real.sin (2 * Real.pi * frequency * (t : ℝ)))
  else if cfg.WaveformType = WaveTriangle then
    .ok (2 * |2 * ((t : ℝ) * frequency - (⌊(t : ℝ) * frequency + 0.5⌋ : ℝ))| - 1)
  else if cfg.WaveformType = WaveSawtooth then
    .ok (2 * ((t : ℝ) * frequency - (⌊0.5 + (t : ℝ) * frequency⌋ : ℝ)))
  else if cfg.WaveformType = WaveSquare then
    .ok (mathCopysign 1 (Real.sin (2 * Real.pi * frequency * (t : ℝ))))
  else .error ("unsupported waveform type: " ++ toString cfg.WaveformType)

/-- `Settings.GenerateSnare` (drum voice module): a tonal burst over the
first 30 percent of the duration (aborting on an unsupported waveform
type), mixed with band-passed pink noise, then envelope, buffer drive and
limiter. -/
noncomputable def Settings.GenerateSnare (cfg : Settings) (rng : ℕ → ℚ) :
    Except String (List ℝ) :=
  let tonalSamples : ℕ :=
    (intTrunc (cfg.Duration * (cfg.SampleRate : ℚ) * 0.3)).toNat
  match genLoop (snareTonalSample cfg) (List.range tonalSamples) with
  | .error e => .error e
  | .ok tonal =>
    let noiseSamples :=
      BandPassFilter
        (GeneratePinkNoise (α := ℝ) cfg.numSamples (cfg.NoiseAmount : ℝ) rng)
        150 8000 cfg.SampleRate
    let mixed :=
      (List.range cfg.numSamples).map
        (fun i => tonal.getD i 0 + noiseSamples.getD i 0)
    .ok (Limiter
      (Synth.Drive
        (ApplyEnvelope mixed (cfg.Attack : ℝ) (cfg.Decay : ℝ)
          (cfg.Sustain : ℝ) (cfg.Release : ℝ) cfg.SampleRate)
        (cfg.Drive : ℝ)))

/-- A concrete baseline `Settings` value used by the concrete-input
theorems below (field values as produced by the percussive `NewSettings`
at 44100 Hz, 16 bits, 1 channel). -/
def testSettings : Settings :=
  { SoundType := 0
    SampleRate := 44100
    BitDepth := 16
    Channels := 1
    Output := none
    StartFreq := 100
    EndFreq := 50
    Duration := 1
    WaveformType := WaveSine
    NoiseAmount := 0
    Attack := 0.005
    Decay := 0.2
    Sustain := 0.1
    Release := 0.1
    Drive := 0.2
    FilterCutoff := 8000
    Sweep := 0.7
    PitchDecay := 0.4
    NoiseType := 0
    NumOscillators := 1
    OscillatorLevels := [1.0]
    SaturatorAmount := 0.3
    FilterResonance := 1.0
    FilterBands := [200.0, 1000.0, 3000.0]
    FadeDuration := 0.01
    SmoothFrequencyTransitions := true }

/-- Concrete settings with a zero attack, zero decay and a sustain level
distinct from 1 (two seconds at one sample per second). -/
def attackZeroSettings : Settings :=
  { testSettings with
    Attack := 0
    Decay := 0
    Sustain := 1/2
    Release := 0
    Duration := 2
    SampleRate := 1 }

/-- Concrete settings whose waveform type is undefined and whose duration
is short enough that no sample at all is generated. -/
def emptyKickSettings : Settings :=
  { testSettings with
    WaveformType := 99
    SampleRate := 1
    Duration := 1/2 }

/-- Concrete settings with the undefined waveform-type code 7 and enough
duration for both the kick loop and the snare tonal loop to run. -/
def unsupportedWaveSettings : Settings :=
  { testSettings with
    WaveformType := 7
    SampleRate := 1
    Duration := 4 }

/-- Concrete well-formed envelope settings: a quarter second each of
attack, decay and release within a one-second duration at two samples per
second. -/
def envelopeWitnessSettings : Settings :=
  { testSettings with
    Attack := 1/4
    Decay := 1/4
    Sustain := 1/2
    Release := 1/4
    Duration := 1
    SampleRate := 2 }

/-- Concrete settings with a drive amount of zero. -/
def zeroDriveSettings : Settings :=
  { testSettings with Drive := 0 }

/-- Concrete settings with a zero attack but a positive decay. -/
def zeroAttackSettings : Settings :=
  { testSettings with Attack := 0 }

end Synth

namespace Synth

section ClampLemmas

variable {α : Type*} [LinearOrderedField α]

/-- The hard-clip if-chain used throughout the source always lands in
[-1, 1]. -/
lemma clamp_bounds (v : α) :
    -1 ≤ (if v > 1 then (1 : α) else if v < -1 then -1 else v) ∧
      (if v > 1 then (1 : α) else if v < -1 then -1 else v) ≤ 1 := by
  split_ifs with h1 h2
  · norm_num
  · norm_num
  · push_neg at h1 h2
    exact ⟨h2, h1⟩

/-- The hard-clip if-chain is the identity on values already in [-1, 1]. -/
lemma clamp_eq_self (v : α) (h1 : -1 ≤ v) (h2 : v ≤ 1) :
    (if v > 1 then (1 : α) else if v < -1 then -1 else v) = v := by
  rw [if_neg (not_lt.mpr h2), if_neg (not_lt.mpr h1)]

/-- The soft-saturation drive if-chain stays within [-1, 1] whenever the
input sample does. -/
lemma driveSample_bounds (s d : α) (h1 : -1 ≤ s) (h2 : s ≤ 1) :
    -1 ≤ (if d > 0 then s * (1 + d) / (1 + d * |s|) else s) ∧
      (if d > 0 then s * (1 + d) / (1 + d * |s|) else s) ≤ 1 := by
  split_ifs with hd
  · have habs : |s| ≤ 1 := abs_le.mpr ⟨h1, h2⟩
    have hden : (0 : α) < 1 + d * |s| := by nlinarith [abs_nonneg s]
    have key : |s * (1 + d) / (1 + d * |s|)| ≤ 1 := by
      rw [abs_div, abs_mul, abs_of_pos (by nlinarith : (0 : α) < 1 + d),
        abs_of_pos hden, div_le_one hden]
      nlinarith [abs_nonneg s]
    exact abs_le.mp key
  · exact ⟨h1, h2⟩

end ClampLemmas

/-- C9: the limiter is idempotent — clipping an already clipped buffer
changes nothing. -/
theorem limiter_idempotent (x : List ℚ) : Limiter (Limiter x) = Limiter x := by
  induction x with
  | nil => rfl
  | cons s xs ih =>
    simp only [Limiter, List.map_cons] at ih ⊢
    congr 1
    exact clamp_eq_self _ (clamp_bounds s).1 (clamp_bounds s).2

/-- C7 counterexample: the buffer-level `Drive` of synth.go multiplies by
the gain and clips, so gain 0 zeroes the buffer instead of returning it
unchanged. -/
theorem drive_identity_counterexample :
    Drive [(1/2 : ℚ)] 0 = [0] ∧ ([(0 : ℚ)] ≠ [1/2]) := by
  constructor
  · norm_num [Drive]
  · simp

/-- C7 amended: the saturation drive (`Settings.ApplyDrive` and the vendor
`audioeffects.Drive`) is the identity for any non-positive drive amount;
the gain-scaling buffer `Drive` is excluded. -/
theorem drive_identity_amended :
    (∀ (cfg : Settings) (s : ℝ), cfg.Drive ≤ 0 → cfg.ApplyDrive s = s) ∧
      ∀ (s d : ℚ), d ≤ 0 → AudioEffects.Drive s d = s := by
  constructor
  · intro cfg s h
    unfold Settings.ApplyDrive
    rw [if_neg (not_lt.mpr (by exact_mod_cast h))]
  · intro s d h
    unfold AudioEffects.Drive
    rw [if_neg (not_lt.mpr h)]

/-- C7 amended witness: concrete instantiations of both conjuncts at a
sample outside [-1, 1] and at a negative drive amount. -/
theorem drive_identity_amended_witness :
    zeroDriveSettings.Drive ≤ 0 ∧ zeroDriveSettings.ApplyDrive (2 : ℝ) = 2 ∧
      ((-1 : ℚ) ≤ 0 ∧ AudioEffects.Drive (3 : ℚ) (-1) = 3) := by
  have h1 : zeroDriveSettings.Drive ≤ 0 := by norm_num [zeroDriveSettings, testSettings]
  have h2 : (-1 : ℚ) ≤ 0 := by norm_num
  exact ⟨h1, drive_identity_amended.1 zeroDriveSettings 2 h1,
    h2, drive_identity_amended.2 3 (-1) h2⟩

/-- C5: the percussive `NewSettings` fails exactly when the sample rate,
the duration or the channel count is non-positive, at construction time. -/
theorem newSettings_fails_iff (output : Option Unit)
    (startFreq endFreq duration : ℚ) (sampleRate bitDepth channels : ℤ) :
    (∃ e, NewSettings output startFreq endFreq duration sampleRate bitDepth
        channels = .error e) ↔
      sampleRate ≤ 0 ∨ duration ≤ 0 ∨ channels ≤ 0 := by
  unfold NewSettings
  split_ifs with h
  · simpa using h
  · simpa using h

/-- C10: `GenerateNoise` with `NoiseNone` or any other code outside
white, pink and brown returns exactly the requested number of samples,
all zero, and has no error path at all. -/
theorem generateNoise_default_silent (noiseType : ℤ) (n : ℕ) (amount : ℚ)
    (rng : ℕ → ℚ) (hw : noiseType ≠ NoiseWhite) (hp : noiseType ≠ NoisePink)
    (hb : noiseType ≠ NoiseBrown) :
    GenerateNoise noiseType n amount rng = List.replicate n 0 ∧
      (GenerateNoise noiseType n amount rng).length = n := by
  have h : GenerateNoise noiseType n amount rng = List.replicate n 0 := by
    unfold GenerateNoise
    simp [hw, hp, hb]
  refine ⟨h, ?_⟩
  rw [h]
  simp

/-- C10 witness: noise type `NoiseNone` at length 3 yields three zero
samples. -/
theorem generateNoise_default_silent_witness :
    NoiseNone ≠ NoiseWhite ∧ NoiseNone ≠ NoisePink ∧ NoiseNone ≠ NoiseBrown ∧
      GenerateNoise NoiseNone 3 (1/2 : ℚ) (fun _ => 0) =
        List.replicate 3 (0 : ℚ) := by
  have hw : NoiseNone ≠ NoiseWhite := by norm_num [NoiseNone, NoiseWhite]
  have hp : NoiseNone ≠ NoisePink := by norm_num [NoiseNone, NoisePink]
  have hb : NoiseNone ≠ NoiseBrown := by norm_num [NoiseNone, NoiseBrown]
  exact ⟨hw, hp, hb,
    (generateNoise_default_silent NoiseNone 3 (1/2) (fun _ => 0) hw hp hb).1⟩

/-- C8 counterexample: with attack 0 and decay 0 the point envelope at
time 0 is the sustain level (here one half), not 1. -/
theorem attack_zero_counterexample :
    attackZeroSettings.Attack = 0 ∧
      attackZeroSettings.ApplyEnvelopeAtTime 0 = 1/2 ∧ (1/2 : ℚ) ≠ 1 := by
  refine ⟨by norm_num [attackZeroSettings, testSettings], ?_, by norm_num⟩
  norm_num [Settings.ApplyEnvelopeAtTime, attackZeroSettings, testSettings]

/-- C8 amended: with attack 0 the point envelope at time 0 is 1 provided
the decay is positive (no division by zero is reached, since the attack
branch is not taken); the whole-buffer vendor envelope gives its first
sample level 1 unconditionally when attack is 0. -/
theorem attack_zero_envelope_one :
    (∀ cfg : Settings, cfg.Attack = 0 → 0 < cfg.Decay →
        cfg.ApplyEnvelopeAtTime 0 = 1) ∧
      ∀ (x : ℚ) (xs : List ℚ) (decay sustainLevel release : ℚ) (sr : ℤ),
        (AudioEffects.Envelope (x :: xs) 0 decay sustainLevel release
          sr).getD 0 0 = x := by
  constructor
  · intro cfg ha hd
    unfold Settings.ApplyEnvelopeAtTime
    rw [ha]
    rw [if_neg (by norm_num), if_pos (by simpa using hd)]
    norm_num
  · intro x xs decay sustainLevel release sr
    unfold AudioEffects.Envelope AudioEffects.envelopeLoop
    norm_num [intTrunc]

section PeakLemmas

/-- The peak fold never drops below its accumulator. -/
lemma peakFold_le (l : List ℚ) : ∀ acc : ℚ,
    acc ≤ l.foldl (fun m s => if |s| > m then |s| else m) acc := by
  induction l with
  | nil => intro acc; simp
  | cons s xs ih =>
    intro acc
    simp only [List.foldl_cons]
    refine le_trans ?_ (ih _)
    split_ifs with h
    · exact le_of_lt h
    · exact le_rfl

/-- The peak fold bounds the absolute value of every list element. -/
lemma peakFold_mem {s : ℚ} : ∀ {l : List ℚ}, s ∈ l → ∀ acc : ℚ,
    |s| ≤ l.foldl (fun m t => if |t| > m then |t| else m) acc := by
  intro l
  induction l with
  | nil => intro hs; cases hs
  | cons t xs ih =>
    intro hs acc
    rcases List.mem_cons.mp hs with rfl | h
    · simp only [List.foldl_cons]
      refine le_trans ?_ (peakFold_le xs _)
      split_ifs with h'
      · exact le_rfl
      · exact not_lt.mp h'
    · exact ih h _

/-- Every element of a buffer is bounded by its peak amplitude. -/
lemma abs_le_findPeak {s : ℚ} {l : List ℚ} (hs : s ∈ l) :
    |s| ≤ FindPeakAmplitude l :=
  peakFold_mem hs 0

/-- A buffer with a non-zero element has a positive peak amplitude. -/
lemma findPeak_pos {l : List ℚ} {s : ℚ} (hs : s ∈ l) (hne : s ≠ 0) :
    0 < FindPeakAmplitude l :=
  lt_of_lt_of_le (abs_pos.mpr hne) (abs_le_findPeak hs)

/-- An all-zero buffer has peak amplitude 0. -/
lemma findPeak_all_zero : ∀ {l : List ℚ}, (∀ s ∈ l, s = 0) →
    FindPeakAmplitude l = 0 := by
  intro l
  induction l with
  | nil => intro _; rfl
  | cons s xs ih =>
    intro h
    have hs : s = 0 := h s (List.mem_cons_self s xs)
    have hxs : ∀ t ∈ xs, t = 0 := fun t ht => h t (List.mem_cons_of_mem s ht)
    unfold FindPeakAmplitude at ih ⊢
    simp only [List.foldl_cons, hs, abs_zero]
    rw [if_neg (lt_irrefl 0)]
    exact ih hxs

/-- A buffer whose peak amplitude is 0 is all-zero. -/
lemma findPeak_eq_zero {l : List ℚ} (h : FindPeakAmplitude l = 0) :
    ∀ s ∈ l, s = 0 := by
  intro s hs
  have := abs_le_findPeak hs
  rw [h] at this
  exact abs_eq_zero.mp (le_antisymm this (abs_nonneg s))

/-- Scaling every element by a positive constant scales the peak fold. -/
lemma peakFold_scale (c : ℚ) (hc : 0 < c) : ∀ (l : List ℚ) (acc : ℚ),
    (l.map (fun s => s * c)).foldl (fun m t => if |t| > m then |t| else m)
        (c * acc) =
      c * l.foldl (fun m t => if |t| > m then |t| else m) acc := by
  intro l
  induction l with
  | nil => intro acc; simp
  | cons s xs ih =>
    intro acc
    simp only [List.map_cons, List.foldl_cons]
    have habs : |s * c| = c * |s| := by
      rw [abs_mul, abs_of_pos hc, mul_comm]
    by_cases h : |s| > acc
    · rw [if_pos h, if_pos (by rw [habs]; exact (mul_lt_mul_left hc).mpr h),
        habs]
      exact ih |s|
    · have hneg : ¬(|s * c| > c * acc) := by
        rw [habs]
        intro hlt
        exact h ((mul_lt_mul_left hc).mp hlt)
      rw [if_neg h, if_neg hneg]
      exact ih acc

/-- Scaling every element by a positive constant scales the peak. -/
lemma findPeak_map_scale (c : ℚ) (hc : 0 < c) (l : List ℚ) :
    FindPeakAmplitude (l.map (fun s => s * c)) = c * FindPeakAmplitude l := by
  unfold FindPeakAmplitude
  have h := peakFold_scale c hc l 0
  rw [mul_zero] at h
  exact h

end PeakLemmas

/-- C6: normalizing a buffer with a non-zero sample to a target peak in
(0, 1] makes the peak amplitude exactly the target (clamping never
triggers), and normalizing an all-zero buffer returns the very same
buffer. -/
theorem normalize_peak_roundtrip :
    (∀ (x : List ℚ) (P : ℚ), (∃ s ∈ x, s ≠ 0) → 0 < P → P ≤ 1 →
        FindPeakAmplitude (NormalizeSamples x P) = P) ∧
      ∀ (x : List ℚ) (P : ℚ), (∀ s ∈ x, s = 0) → NormalizeSamples x P = x := by
  constructor
  · rintro x P ⟨s0, hs0, hne⟩ hP hP1
    have hpeak : 0 < FindPeakAmplitude x := findPeak_pos hs0 hne
    have hpeak0 : FindPeakAmplitude x ≠ 0 := ne_of_gt hpeak
    have hcpos : 0 < P / FindPeakAmplitude x := div_pos hP hpeak
    unfold NormalizeSamples
    rw [if_neg hpeak0]
    have hmap :
        x.map (fun sample =>
            let normalized := sample * (P / FindPeakAmplitude x)
            if normalized > 1 then 1
            else if normalized < -1 then -1
            else normalized) =
          x.map (fun sample => sample * (P / FindPeakAmplitude x)) := by
      apply List.map_congr_left
      intro s hs
      have h1 : |s * (P / FindPeakAmplitude x)| ≤ P := by
        rw [abs_mul, abs_of_pos hcpos]
        calc |s| * (P / FindPeakAmplitude x)
            ≤ FindPeakAmplitude x * (P / FindPeakAmplitude x) :=
              mul_le_mul_of_nonneg_right (abs_le_findPeak hs)
                (le_of_lt hcpos)
          _ = P := by
              rw [mul_comm, div_mul_cancel₀ _ hpeak0]
      have h2 := abs_le.mp (le_trans h1 hP1)
      exact clamp_eq_self _ h2.1 h2.2
    rw [hmap, findPeak_map_scale _ hcpos, div_mul_cancel₀ _ hpeak0]
  · intro x P h
    unfold NormalizeSamples
    rw [if_pos (findPeak_all_zero h)]

/-- C6 witness: both conjuncts at concrete buffers. -/
theorem normalize_peak_roundtrip_witness :
    (∃ s ∈ [(1/2 : ℚ), -1/4], s ≠ 0) ∧ (0 : ℚ) < 3/4 ∧ (3/4 : ℚ) ≤ 1 ∧
      FindPeakAmplitude (NormalizeSamples [(1/2 : ℚ), -1/4] (3/4)) = 3/4 ∧
      (∀ s ∈ [(0 : ℚ), 0], s = 0) ∧
      NormalizeSamples [(0 : ℚ), 0] (3/4) = [0, 0] := by
  have h1 : ∃ s ∈ [(1/2 : ℚ), -1/4], s ≠ 0 := ⟨1/2, by simp, by norm_num⟩
  have h2 : (0 : ℚ) < 3/4 := by norm_num
  have h3 : (3/4 : ℚ) ≤ 1 := by norm_num
  have h4 : ∀ s ∈ [(0 : ℚ), 0], s = 0 := by simp
  exact ⟨h1, h2, h3, normalize_peak_roundtrip.1 _ _ h1 h2 h3, h4,
    normalize_peak_roundtrip.2 [(0 : ℚ), 0] (3/4) h4⟩

section GenLoopLemmas

/-- A per-index loop aborts with the error of its first iteration. -/
lemma genLoop_cons_error {β : Type*} {f : ℕ → Except String β} {i : ℕ}
    {is : List ℕ} {e : String} (hf : f i = .error e) :
    genLoop f (i :: is) = .error e := by
  simp [genLoop, hf]

/-- Every value in the output of a successful per-index loop is the
successful result of the loop body at some index of the index list. -/
lemma genLoop_ok_mem {β : Type*} {f : ℕ → Except String β} :
    ∀ {l : List ℕ} {out : List β}, genLoop f l = .ok out →
      ∀ y ∈ out, ∃ i ∈ l, f i = .ok y := by
  intro l
  induction l with
  | nil =>
    intro out h y hy
    simp only [genLoop, Except.ok.injEq] at h
    subst h
    cases hy
  | cons i is ih =>
    intro out h y hy
    cases hf : f i with
    | error e => simp [genLoop, hf] at h
    | ok s =>
      cases hg : genLoop f is with
      | error e => simp [genLoop, hf, hg] at h
      | ok rest =>
        simp only [genLoop, hf, hg, Except.ok.injEq] at h
        subst h
        rcases List.mem_cons.mp hy with rfl | hy'
        · exact ⟨i, List.mem_cons_self i is, hf⟩
        · obtain ⟨j, hj, hfj⟩ := ih hg y hy'
          exact ⟨j, List.mem_cons_of_mem i hj, hfj⟩

end GenLoopLemmas

section MismatchLemmas

/-- The linear-summation inner loop fails whenever some buffer has the
wrong length. -/
lemma sumAtIndex_mismatch : ∀ (bufs : List (List ℚ)) (n i : ℕ) (acc : ℚ),
    (∃ b ∈ bufs, b.length ≠ n) →
    sumAtIndex n i bufs acc = .error "mismatched sample lengths" := by
  intro bufs
  induction bufs with
  | nil =>
    rintro n i acc ⟨b, hb, -⟩
    cases hb
  | cons c cs ih =>
    rintro n i acc ⟨b, hb, hlen⟩
    by_cases hc : c.length ≠ n
    · unfold sumAtIndex
      rw [if_pos hc]
    · unfold sumAtIndex
      rw [if_neg hc]
      apply ih
      rcases List.mem_cons.mp hb with rfl | hb'
      · exact absurd hlen hc
      · exact ⟨b, hb', hlen⟩

/-- The weighted-summation inner loop fails whenever some buffer has the
wrong length. -/
lemma weightedSumAtIndex_mismatch :
    ∀ (bufs : List (List ℚ)) (ws : List ℚ) (n i : ℕ) (acc : ℚ),
    (∃ b ∈ bufs, b.length ≠ n) →
    weightedSumAtIndex n i ws bufs acc = .error "mismatched sample lengths" := by
  intro bufs
  induction bufs with
  | nil =>
    rintro ws n i acc ⟨b, hb, -⟩
    cases hb
  | cons c cs ih =>
    rintro ws n i acc ⟨b, hb, hlen⟩
    by_cases hc : c.length ≠ n
    · unfold weightedSumAtIndex
      rw [if_pos hc]
    · unfold weightedSumAtIndex
      rw [if_neg hc]
      apply ih
      rcases List.mem_cons.mp hb with rfl | hb'
      · exact absurd hlen hc
      · exact ⟨b, hb', hlen⟩

/-- The RMS inner loop fails whenever some buffer has the wrong length. -/
lemma squareSumAtIndex_mismatch :
    ∀ (bufs : List (List ℝ)) (n i : ℕ) (acc : ℝ),
    (∃ b ∈ bufs, b.length ≠ n) →
    squareSumAtIndex n i bufs acc = .error "mismatched sample lengths" := by
  intro bufs
  induction bufs with
  | nil =>
    rintro n i acc ⟨b, hb, -⟩
    cases hb
  | cons c cs ih =>
    rintro n i acc ⟨b, hb, hlen⟩
    by_cases hc : c.length ≠ n
    · unfold squareSumAtIndex
      rw [if_pos hc]
    · unfold squareSumAtIndex
      rw [if_neg hc]
      apply ih
      rcases List.mem_cons.mp hb with rfl | hb'
      · exact absurd hlen hc
      · exact ⟨b, hb', hlen⟩

end MismatchLemmas

/-- C4 counterexample: with an empty first buffer the per-index loop never
runs, so `LinearSummation` accepts mismatched buffer lengths and returns
an empty buffer with no error. -/
theorem summation_mismatch_counterexample :
    (([] : List ℚ).length ≠ ([(1/2 : ℚ)] : List ℚ).length) ∧
      LinearSummation [([] : List ℚ), [1/2]] = .ok [] := by
  constructor
  · simp
  · norm_num [LinearSummation, genLoop]

/-- C4 amended: provided the first buffer is non-empty, a length mismatch
among the buffers makes linear, weighted and RMS summation fail with the
mismatched-length error; and a weight-count mismatch makes weighted
summation fail with the weight-count error unconditionally. -/
theorem summation_mismatch_errors :
    (∀ bufs : List (List ℚ), 0 < (bufs.headD []).length →
        (∃ b ∈ bufs, b.length ≠ (bufs.headD []).length) →
        LinearSummation bufs = .error "mismatched sample lengths") ∧
      (∀ (w : List ℚ) (bufs : List (List ℚ)), w.length = bufs.length →
        0 < (bufs.headD []).length →
        (∃ b ∈ bufs, b.length ≠ (bufs.headD []).length) →
        WeightedSummation w bufs = .error "mismatched sample lengths") ∧
      (∀ bufs : List (List ℝ), 0 < (bufs.headD []).length →
        (∃ b ∈ bufs, b.length ≠ (bufs.headD []).length) →
        RMSMixing bufs = .error "mismatched sample lengths") ∧
      ∀ (w : List ℚ) (bufs : List (List ℚ)), w.length ≠ bufs.length →
        WeightedSummation w bufs =
          .error "number of weights must match number of samples" := by
  refine ⟨?_, ?_, ?_, ?_⟩
  · intro bufs h0 hm
    have hne : ¬(bufs.length = 0) := by
      intro h
      rw [List.length_eq_zero] at h
      subst h
      simp at h0
    obtain ⟨m, hm'⟩ : ∃ m, (bufs.headD []).length = m + 1 :=
      ⟨(bufs.headD []).length - 1, by omega⟩
    rw [hm'] at hm
    have hs := sumAtIndex_mismatch bufs (m + 1) 0 0 hm
    simp only [LinearSummation]
    rw [if_neg hne, hm', List.range_succ_eq_map]
    exact genLoop_cons_error (by simp [hs])
  · intro w bufs hw h0 hm
    have hne : ¬(bufs.length = 0) := by
      intro h
      rw [List.length_eq_zero] at h
      subst h
      simp at h0
    obtain ⟨m, hm'⟩ : ∃ m, (bufs.headD []).length = m + 1 :=
      ⟨(bufs.headD []).length - 1, by omega⟩
    rw [hm'] at hm
    have hs := weightedSumAtIndex_mismatch bufs w (m + 1) 0 0 hm
    simp only [WeightedSummation]
    rw [if_neg (by simp [hw]), if_neg hne, hm', List.range_succ_eq_map]
    exact genLoop_cons_error (by simp [hs])
  · intro bufs h0 hm
    have hne : ¬(bufs.length = 0) := by
      intro h
      rw [List.length_eq_zero] at h
      subst h
      simp at h0
    obtain ⟨m, hm'⟩ : ∃ m, (bufs.headD []).length = m + 1 :=
      ⟨(bufs.headD []).length - 1, by omega⟩
    rw [hm'] at hm
    have hs := squareSumAtIndex_mismatch bufs (m + 1) 0 0 hm
    simp only [RMSMixing]
    rw [if_neg hne, hm', List.range_succ_eq_map]
    exact genLoop_cons_error (by simp [hs])
  · intro w bufs hw
    simp only [WeightedSummation]
    rw [if_pos hw]

/-- C4 amended witness: concrete mismatched calls for each of the four
conjuncts. -/
theorem summation_mismatch_errors_witness :
    LinearSummation [[(1/2 : ℚ)], [1/2, 0]] =
        .error "mismatched sample lengths" ∧
      WeightedSummation [(1 : ℚ), 1] [[(1/2 : ℚ)], [1/2, 0]] =
        .error "mismatched sample lengths" ∧
      RMSMixing [[(0 : ℝ)], [0, 0]] = .error "mismatched sample lengths" ∧
      WeightedSummation [(1 : ℚ)] [] =
        .error "number of weights must match number of samples" := by
  refine ⟨summation_mismatch_errors.1 _ (by norm_num) ?_,
    summation_mismatch_errors.2.1 _ _ (by norm_num) (by norm_num) ?_,
    summation_mismatch_errors.2.2.1 _ (by norm_num) ?_,
    summation_mismatch_errors.2.2.2 _ _ (by norm_num)⟩
  · exact ⟨[1/2, 0], by simp, by norm_num⟩
  · exact ⟨[1/2, 0], by simp, by norm_num⟩
  · exact ⟨[0, 0], by simp, by norm_num⟩

/-- C1 counterexample: the soft-saturation drive does not clamp an input
sample that already lies outside [-1, 1] — sample 2 at drive amount one
half maps to 3/2. -/
theorem clamping_invariant_counterexample :
    AudioEffects.Drive (2 : ℚ) (1/2) = 3/2 ∧ ¬((3/2 : ℚ) ≤ 1) := by
  constructor
  · norm_num [AudioEffects.Drive, abs_of_pos]
  · norm_num

/-- C1 amended: the limiter, normalization and the three mixers emit only
samples in [-1, 1] for arbitrary inputs; the saturation drive (both the
`Settings` method and the vendor per-sample function) stays in [-1, 1]
provided its input sample lies in [-1, 1]. -/
theorem clamping_invariant :
    (∀ s d : ℚ, -1 ≤ s → s ≤ 1 →
        -1 ≤ AudioEffects.Drive s d ∧ AudioEffects.Drive s d ≤ 1) ∧
      (∀ (cfg : Settings) (s : ℝ), -1 ≤ s → s ≤ 1 →
        -1 ≤ cfg.ApplyDrive s ∧ cfg.ApplyDrive s ≤ 1) ∧
      (∀ x : List ℚ, ∀ y ∈ Limiter x, -1 ≤ y ∧ y ≤ 1) ∧
      (∀ (x : List ℚ) (P : ℚ), ∀ y ∈ NormalizeSamples x P, -1 ≤ y ∧ y ≤ 1) ∧
      (∀ (bufs : List (List ℚ)) (out : List ℚ),
        LinearSummation bufs = .ok out → ∀ y ∈ out, -1 ≤ y ∧ y ≤ 1) ∧
      (∀ (w : List ℚ) (bufs : List (List ℚ)) (out : List ℚ),
        WeightedSummation w bufs = .ok out → ∀ y ∈ out, -1 ≤ y ∧ y ≤ 1) ∧
      ∀ (bufs : List (List ℝ)) (out : List ℝ),
        RMSMixing bufs = .ok out → ∀ y ∈ out, -1 ≤ y ∧ y ≤ 1 := by
  refine ⟨?_, ?_, ?_, ?_, ?_, ?_, ?_⟩
  · intro s d h1 h2
    exact driveSample_bounds s d h1 h2
  · intro cfg s h1 h2
    exact driveSample_bounds s (cfg.Drive : ℝ) h1 h2
  · intro x y hy
    unfold Limiter at hy
    obtain ⟨s, hs, rfl⟩ := List.mem_map.mp hy
    exact clamp_bounds s
  · intro x P y hy
    unfold NormalizeSamples at hy
    by_cases hp : FindPeakAmplitude x = 0
    · rw [if_pos hp] at hy
      have hz := findPeak_eq_zero hp y hy
      rw [hz]
      norm_num
    · rw [if_neg hp] at hy
      obtain ⟨s, hs, rfl⟩ := List.mem_map.mp hy
      exact clamp_bounds _
  · intro bufs out hok y hy
    by_cases hne : bufs.length = 0
    · simp only [LinearSummation] at hok
      rw [if_pos hne] at hok
      cases hok
    · simp only [LinearSummation] at hok
      rw [if_neg hne] at hok
      obtain ⟨i, hi, hfi⟩ := genLoop_ok_mem hok y hy
      cases hs : sumAtIndex (bufs.headD []).length i bufs 0 with
      | error e => rw [hs] at hfi; cases hfi
      | ok sum =>
        rw [hs] at hfi
        simp only [Except.ok.injEq] at hfi
        subst hfi
        exact clamp_bounds _
  · intro w bufs out hok y hy
    by_cases hw : w.length ≠ bufs.length
    · simp only [WeightedSummation] at hok
      rw [if_pos hw] at hok
      cases hok
    · by_cases hne : bufs.length = 0
      · simp only [WeightedSummation] at hok
        rw [if_neg hw, if_pos hne] at hok
        cases hok
      · simp only [WeightedSummation] at hok
        rw [if_neg hw, if_neg hne] at hok
        obtain ⟨i, hi, hfi⟩ := genLoop_ok_mem hok y hy
        cases hs : weightedSumAtIndex (bufs.headD []).length i w bufs 0 with
        | error e => rw [hs] at hfi; cases hfi
        | ok sum =>
          rw [hs] at hfi
          simp only [Except.ok.injEq] at hfi
          subst hfi
          exact clamp_bounds _
  · intro bufs out hok y hy
    by_cases hne : bufs.length = 0
    · simp only [RMSMixing] at hok
      rw [if_pos hne] at hok
      cases hok
    · simp only [RMSMixing] at hok
      rw [if_neg hne] at hok
      obtain ⟨i, hi, hfi⟩ := genLoop_ok_mem hok y hy
      cases hs : squareSumAtIndex (bufs.headD []).length i bufs 0 with
      | error e => rw [hs] at hfi; cases hfi
      | ok sumSquares =>
        rw [hs] at hfi
        simp only [Except.ok.injEq] at hfi
        subst hfi
        exact clamp_bounds _

/-- C1 amended witness: concrete instantiations of all seven conjuncts. -/
theorem clamping_invariant_witness :
    ((-1 : ℚ) ≤ 1/2 ∧ (1/2 : ℚ) ≤ 1 ∧
      -1 ≤ AudioEffects.Drive (1/2 : ℚ) 3 ∧ AudioEffects.Drive (1/2 : ℚ) 3 ≤ 1) ∧
      (-1 ≤ testSettings.ApplyDrive (1/2 : ℝ) ∧
        testSettings.ApplyDrive (1/2 : ℝ) ≤ 1) ∧
      (∀ y ∈ Limiter [(2 : ℚ), -3], -1 ≤ y ∧ y ≤ 1) ∧
      (∀ y ∈ NormalizeSamples [(4 : ℚ)] (1/2), -1 ≤ y ∧ y ≤ 1) ∧
      (LinearSummation [[(1/2 : ℚ)]] = .ok [1/2] ∧ (-1 : ℚ) ≤ 1/2 ∧ (1/2 : ℚ) ≤ 1) ∧
      (WeightedSummation [(3 : ℚ)] [[(1 : ℚ)]] = .ok [1] ∧ (-1 : ℚ) ≤ 1 ∧ (1 : ℚ) ≤ 1) ∧
      ∃ out, RMSMixing [[(0 : ℝ)]] = .ok out ∧ ∀ y ∈ out, -1 ≤ y ∧ y ≤ 1 := by
  have h1 : (-1 : ℚ) ≤ 1/2 := by norm_num
  have h2 : (1/2 : ℚ) ≤ 1 := by norm_num
  have hlin : LinearSummation [[(1/2 : ℚ)]] = .ok [1/2] := by
    norm_num [LinearSummation, genLoop, sumAtIndex]
  have hwgt : WeightedSummation [(3 : ℚ)] [[(1 : ℚ)]] = .ok [1] := by
    norm_num [WeightedSummation, genLoop, weightedSumAtIndex]
  have hrms : RMSMixing [[(0 : ℝ)]] = .ok [0] := by
    norm_num [RMSMixing, genLoop, squareSumAtIndex, Real.sqrt_zero]
  refine ⟨⟨h1, h2, clamping_invariant.1 (1/2) 3 h1 h2⟩,
    clamping_invariant.2.1 testSettings (1/2) (by norm_num) (by norm_num),
    fun y hy => clamping_invariant.2.2.1 _ y hy,
    fun y hy => clamping_invariant.2.2.2.1 _ _ y hy,
    ⟨hlin, h1, h2⟩, ⟨hwgt, by norm_num, le_rfl⟩,
    ⟨[0], hrms, fun y hy => clamping_invariant.2.2.2.2.2.2 _ _ hrms y hy⟩⟩

/-- The whole-buffer envelope loop of synth.go computes, at every index,
the sample multiplied by the point ADSR evaluation at that index's time,
once the loop's total duration equals the configured duration. -/
lemma applyEnvelopeLoop_getD (cfg : Settings) :
    ∀ (l : List ℚ) (i0 k : ℕ), k < l.length →
      (applyEnvelopeLoop cfg.Attack cfg.Decay cfg.Sustain cfg.Release
          cfg.Duration cfg.SampleRate i0 l).getD k 0 =
        l.getD k 0 *
          cfg.ApplyEnvelopeAtTime (((i0 + k : ℕ) : ℚ) / (cfg.SampleRate : ℚ)) := by
  intro l
  induction l with
  | nil =>
    intro i0 k hk
    simp at hk
  | cons s rest ih =>
    intro i0 k hk
    cases k with
    | zero =>
      simp only [applyEnvelopeLoop, List.getD_cons_zero, Nat.add_zero]
      unfold Settings.ApplyEnvelopeAtTime
      congr 1
    | succ k' =>
      simp only [applyEnvelopeLoop, List.getD_cons_succ]
      have hk' : k' < rest.length := by
        simp only [List.length_cons] at hk
        omega
      rw [ih (i0 + 1) k' hk']
      have harith : (i0 + 1) + k' = i0 + (k' + 1) := by omega
      rw [harith]

/-- C2 amended: the whole-buffer transform `ApplyEnvelope` of synth.go
agrees at every index with multiplying the sample by
`ApplyEnvelopeAtTime` at that index's time, whenever the buffer length
equals duration times sample rate. (The vendor `audioeffects.Envelope`
does not satisfy this; see the counterexample.) -/
theorem envelope_pointwise_equiv (cfg : Settings) (samples : List ℚ)
    (hsr : 0 < cfg.SampleRate)
    (hlen : (samples.length : ℚ) = cfg.Duration * (cfg.SampleRate : ℚ))
    (hadr : cfg.Attack + cfg.Decay + cfg.Release ≤ cfg.Duration)
    (i : ℕ) (hi : i < samples.length) :
    (ApplyEnvelope samples cfg.Attack cfg.Decay cfg.Sustain cfg.Release
        cfg.SampleRate).getD i 0 =
      samples.getD i 0 *
        cfg.ApplyEnvelopeAtTime ((i : ℚ) / (cfg.SampleRate : ℚ)) := by
  have hsrQ : (0 : ℚ) < (cfg.SampleRate : ℚ) := by exact_mod_cast hsr
  have hT : (samples.length : ℚ) / (cfg.SampleRate : ℚ) = cfg.Duration := by
    rw [hlen, mul_div_cancel_right₀ _ (ne_of_gt hsrQ)]
  unfold ApplyEnvelope
  rw [hT]
  have h := applyEnvelopeLoop_getD cfg samples 0 i hi
  simpa using h

/-- C2 counterexample: at attack 0, decay 0, sustain one half, the vendor
whole-buffer `audioeffects.Envelope` gives the first sample level 1, while
the point evaluation gives the sustain level one half — the two interfaces
disagree even on a buffer of the exact duration-times-rate length. -/
theorem envelope_wholebuffer_counterexample :
    (0 : ℤ) < attackZeroSettings.SampleRate ∧
      (([1, 1] : List ℚ).length : ℚ) =
        attackZeroSettings.Duration * (attackZeroSettings.SampleRate : ℚ) ∧
      attackZeroSettings.Attack + attackZeroSettings.Decay +
          attackZeroSettings.Release ≤ attackZeroSettings.Duration ∧
      (AudioEffects.Envelope [1, 1] attackZeroSettings.Attack
          attackZeroSettings.Decay attackZeroSettings.Sustain
          attackZeroSettings.Release attackZeroSettings.SampleRate).getD 0 0 ≠
        ([1, 1] : List ℚ).getD 0 0 *
          attackZeroSettings.ApplyEnvelopeAtTime
            ((0 : ℚ) / (attackZeroSettings.SampleRate : ℚ)) := by
  refine ⟨by norm_num [attackZeroSettings, testSettings],
    by norm_num [attackZeroSettings, testSettings],
    by norm_num [attackZeroSettings, testSettings], ?_⟩
  norm_num [AudioEffects.Envelope, AudioEffects.envelopeLoop, intTrunc,
    Settings.ApplyEnvelopeAtTime, attackZeroSettings, testSettings]

/-- C2 amended witness: the equivalence at a concrete two-sample buffer
with a well-formed ADSR split. -/
theorem envelope_pointwise_equiv_witness :
    (0 : ℤ) < envelopeWitnessSettings.SampleRate ∧
      (([1, 1] : List ℚ).length : ℚ) =
        envelopeWitnessSettings.Duration *
          (envelopeWitnessSettings.SampleRate : ℚ) ∧
      envelopeWitnessSettings.Attack + envelopeWitnessSettings.Decay +
          envelopeWitnessSettings.Release ≤ envelopeWitnessSettings.Duration ∧
      (0 : ℕ) < ([1, 1] : List ℚ).length ∧
      (ApplyEnvelope [1, 1] envelopeWitnessSettings.Attack
          envelopeWitnessSettings.Decay envelopeWitnessSettings.Sustain
          envelopeWitnessSettings.Release
          envelopeWitnessSettings.SampleRate).getD 0 0 =
        ([1, 1] : List ℚ).getD 0 0 *
          envelopeWitnessSettings.ApplyEnvelopeAtTime
            ((0 : ℚ) / (envelopeWitnessSettings.SampleRate : ℚ)) := by
  have h1 : (0 : ℤ) < envelopeWitnessSettings.SampleRate := by
    norm_num [envelopeWitnessSettings, testSettings]
  have h2 : (([1, 1] : List ℚ).length : ℚ) =
      envelopeWitnessSettings.Duration *
        (envelopeWitnessSettings.SampleRate : ℚ) := by
    norm_num [envelopeWitnessSettings, testSettings]
  have h3 : envelopeWitnessSettings.Attack + envelopeWitnessSettings.Decay +
      envelopeWitnessSettings.Release ≤ envelopeWitnessSettings.Duration := by
    norm_num [envelopeWitnessSettings, testSettings]
  have h4 : (0 : ℕ) < ([1, 1] : List ℚ).length := by norm_num
  have h := envelope_pointwise_equiv envelopeWitnessSettings [1, 1] h1 h2 h3 0 h4
  exact ⟨h1, h2, h3, h4, by simpa using h⟩

/-- C3 counterexample: with an undefined waveform-type code but a duration
too short for even one sample, `GenerateKickWaveform` silently returns an
empty buffer and no error at all. -/
theorem unsupported_waveform_counterexample :
    emptyKickSettings.WaveformType ∉
        ([WaveSine, WaveTriangle, WaveSawtooth, WaveSquare, WaveWhiteNoise,
          WavePinkNoise, WaveBrownNoise] : List ℤ) ∧
      emptyKickSettings.GenerateKickWaveform (fun _ => 0) = .ok [] := by
  constructor
  · norm_num [emptyKickSettings, testSettings, WaveSine, WaveTriangle,
      WaveSawtooth, WaveSquare, WaveWhiteNoise, WavePinkNoise, WaveBrownNoise]
  · norm_num [Settings.GenerateKickWaveform, Settings.numSamples, intTrunc,
      emptyKickSettings, testSettings, genLoop, Limiter]

/-- C3 amended: an undefined waveform-type code makes `GenerateKickWaveform`
fail with the error naming the code, provided at least one sample is
generated, and makes `GenerateSnare` fail likewise, provided its tonal
loop runs at least once. -/
theorem unsupported_waveform_error :
    (∀ (cfg : Settings) (rng : ℕ → ℚ),
        cfg.WaveformType ∉
          ([WaveSine, WaveTriangle, WaveSawtooth, WaveSquare, WaveWhiteNoise,
            WavePinkNoise, WaveBrownNoise] : List ℤ) →
        0 < cfg.numSamples →
        cfg.GenerateKickWaveform rng =
          .error ("unsupported waveform type: " ++ toString cfg.WaveformType)) ∧
      ∀ (cfg : Settings) (rng : ℕ → ℚ),
        cfg.WaveformType ∉
          ([WaveSine, WaveTriangle, WaveSawtooth, WaveSquare, WaveWhiteNoise,
            WavePinkNoise, WaveBrownNoise] : List ℤ) →
        0 < (intTrunc (cfg.Duration * (cfg.SampleRate : ℚ) * 0.3)).toNat →
        cfg.GenerateSnare rng =
          .error ("unsupported waveform type: " ++ toString cfg.WaveformType) := by
  constructor
  · intro cfg rng hwf hn
    simp only [WaveSine, WaveTriangle, WaveSawtooth, WaveSquare,
      WaveWhiteNoise, WavePinkNoise, WaveBrownNoise, List.mem_cons,
      List.not_mem_nil, or_false, not_or] at hwf
    obtain ⟨h0, h1, h2, h3, h4, h5, h6⟩ := hwf
    have hks : kickWaveformSample cfg rng 0 =
        .error ("unsupported waveform type: " ++ toString cfg.WaveformType) := by
      simp [kickWaveformSample, WaveSine, WaveTriangle, WaveSawtooth,
        WaveSquare, WaveWhiteNoise, WavePinkNoise, WaveBrownNoise,
        h0, h1, h2, h3, h4, h5, h6]
    obtain ⟨m, hm⟩ : ∃ m, cfg.numSamples = m + 1 :=
      ⟨cfg.numSamples - 1, by omega⟩
    simp [Settings.GenerateKickWaveform, hm, List.range_succ_eq_map,
      genLoop_cons_error hks]
  · intro cfg rng hwf hn
    simp only [WaveSine, WaveTriangle, WaveSawtooth, WaveSquare,
      WaveWhiteNoise, WavePinkNoise, WaveBrownNoise, List.mem_cons,
      List.not_mem_nil, or_false, not_or] at hwf
    obtain ⟨h0, h1, h2, h3, h4, h5, h6⟩ := hwf
    have hts : snareTonalSample cfg 0 =
        .error ("unsupported waveform type: " ++ toString cfg.WaveformType) := by
      simp [snareTonalSample, WaveSine, WaveTriangle, WaveSawtooth,
        WaveSquare, h0, h1, h2, h3]
    obtain ⟨m, hm⟩ : ∃ m,
        (intTrunc (cfg.Duration * (cfg.SampleRate : ℚ) * 0.3)).toNat = m + 1 :=
      ⟨(intTrunc (cfg.Duration * (cfg.SampleRate : ℚ) * 0.3)).toNat - 1,
        by omega⟩
    simp [Settings.GenerateSnare, hm, List.range_succ_eq_map,
      genLoop_cons_error hts]

/-- C3 amended witness: the undefined waveform-type code 7 at a duration
long enough for both loops to run. -/
theorem unsupported_waveform_error_witness :
    unsupportedWaveSettings.WaveformType ∉
        ([WaveSine, WaveTriangle, WaveSawtooth, WaveSquare, WaveWhiteNoise,
          WavePinkNoise, WaveBrownNoise] : List ℤ) ∧
      0 < unsupportedWaveSettings.numSamples ∧
      0 < (intTrunc (unsupportedWaveSettings.Duration *
        (unsupportedWaveSettings.SampleRate : ℚ) * 0.3)).toNat ∧
      unsupportedWaveSettings.GenerateKickWaveform (fun _ => 0) =
        .error ("unsupported waveform type: " ++
          toString unsupportedWaveSettings.WaveformType) ∧
      unsupportedWaveSettings.GenerateSnare (fun _ => 0) =
        .error ("unsupported waveform type: " ++
          toString unsupportedWaveSettings.WaveformType) := by
  have hwf : unsupportedWaveSettings.WaveformType ∉
      ([WaveSine, WaveTriangle, WaveSawtooth, WaveSquare, WaveWhiteNoise,
        WavePinkNoise, WaveBrownNoise] : List ℤ) := by
    norm_num [unsupportedWaveSettings, testSettings, WaveSine, WaveTriangle,
      WaveSawtooth, WaveSquare, WaveWhiteNoise, WavePinkNoise, WaveBrownNoise]
  have hn : 0 < unsupportedWaveSettings.numSamples := by
    norm_num [Settings.numSamples, intTrunc, unsupportedWaveSettings,
      testSettings]
  have ht : 0 < (intTrunc (unsupportedWaveSettings.Duration *
      (unsupportedWaveSettings.SampleRate : ℚ) * 0.3)).toNat := by
    norm_num [intTrunc, unsupportedWaveSettings, testSettings]
  exact ⟨hwf, hn, ht,
    unsupported_waveform_error.1 unsupportedWaveSettings (fun _ => 0) hwf hn,
    unsupported_waveform_error.2 unsupportedWaveSettings (fun _ => 0) hwf ht⟩

/-- C8 amended witness: both conjuncts at concrete inputs with attack 0. -/
theorem attack_zero_envelope_one_witness :
    zeroAttackSettings.Attack = 0 ∧ 0 < zeroAttackSettings.Decay ∧
      zeroAttackSettings.ApplyEnvelopeAtTime 0 = 1 ∧
      (AudioEffects.Envelope [2, 3] 0 (1/5) (1/10) (1/10) 44100).getD 0 0 = 2 := by
  have ha : zeroAttackSettings.Attack = 0 := by
    norm_num [zeroAttackSettings, testSettings]
  have hd : 0 < zeroAttackSettings.Decay := by
    norm_num [zeroAttackSettings, testSettings]
  exact ⟨ha, hd, attack_zero_envelope_one.1 zeroAttackSettings ha hd,
    attack_zero_envelope_one.2 2 [3] (1/5) (1/10) (1/10) 44100⟩

end Synth

